import Mathlib

/-!
Verification of the AstroPi Phase2 mission program (`Phase2/main.py`).

The development shallowly embeds the program in Lean:
* Python floats are modelled as rationals (`ℚ`), with the float collaborator
  `math.sqrt` passed in as an environment function;
* numpy arrays are modelled as lists (an image is a list of pixels, each a
  list of channel values, or a list of BGR pixel triples);
* the mission loop is a small-step state machine driven by an `Env`
  describing the sensor readings, the clock, the sunlit oracle and the
  point at which an unhandled exception (if any) is raised in each
  iteration.
-/

/-- Round-half-to-even of a rational to the nearest integer.  This models
Python rounding as performed by `round(x)` and by the format specifier
`:.0f` (both round ties to the even integer). -/
def roundHalfEven (q : ℚ) : ℤ :=
  let f := ⌊q⌋
  let frac := q - f
  if frac < 1/2 then f
  else if 1/2 < frac then f + 1
  else if f % 2 = 0 then f else f + 1

/-- Python `round(x, n)` on the rational model of a float. -/
def pyRound (q : ℚ) (n : ℕ) : ℚ :=
  (roundHalfEven (q * 10 ^ n) : ℚ) / 10 ^ n

/-- skyfield `Angle.signed_dms()` (`_sexagesimalize_to_float` in
`skyfield/units.py`): `sign = np.sign(value)`, then
`minutes, seconds = divmod(|value| * 3600, 60)` and
`degrees, minutes = divmod(minutes, 60)`.  `divmod` on non-negative floats
is `(⌊a / b⌋, a - b * ⌊a / b⌋)`. -/
def signed_dms (angle : ℚ) : ℤ × ℤ × ℤ × ℚ :=
  let sign : ℤ := if angle < 0 then -1 else if 0 < angle then 1 else 0
  let total : ℚ := |angle| * 3600
  let minutesTotal : ℤ := ⌊total / 60⌋
  let seconds : ℚ := total - 60 * minutesTotal
  let degrees : ℤ := ⌊(minutesTotal : ℚ) / 60⌋
  let minutes : ℤ := minutesTotal - 60 * degrees
  (sign, degrees, minutes, seconds)

/-- `convert` from `main.py` lines 44–53: unpack `angle.signed_dms()` and
build the EXIF string `f'{degrees:.0f}/1,{minutes:.0f}/1,{seconds*10:.0f}/10'`
(degrees and minutes are integer-valued, so `:.0f` prints the integer;
`seconds*10` is rounded half-to-even by `:.0f`), returning
`(sign < 0, exif_angle)`. -/
def convert (angle : ℚ) : Bool × String :=
  let dms := signed_dms angle
  let exif_angle :=
    toString dms.2.1 ++ "/1," ++ toString dms.2.2.1 ++ "/1," ++
      toString (roundHalfEven (dms.2.2.2 * 10)) ++ "/10"
  (decide (dms.1 < 0), exif_angle)

/-- `np.percentile(a, p)` with the default linear interpolation over the
flattened buffer: sort ascending, take `pos = p * (n - 1) / 100`,
interpolate between the neighbouring order statistics.  (The out-of-range
neighbour default is never used for `0 ≤ p ≤ 100`; the empty buffer is
given the junk value 0, where numpy would produce nan.) -/
def percentile (l : List ℚ) (p : ℚ) : ℚ :=
  let s := List.insertionSort (· ≤ ·) l
  let n := s.length
  if n = 0 then 0
  else
    let pos : ℚ := p * (n - 1) / 100
    let lo : ℕ := (⌊pos⌋).toNat
    let frac : ℚ := pos - lo
    let a := s.getD lo 0
    let b := s.getD (lo + 1) a
    a + frac * (b - a)

/-- `contrast_stretch` from `main.py` lines 72–83, on an image given as a
list of pixels, each pixel a list of channel values.  The percentiles are
taken over the whole flattened buffer (`np.percentile` flattens), and the
three elementwise passes mirror `out = im - in_min`,
`out *= (out_min - out_max) / (in_min - in_max)`, `out += in_min`. -/
def contrast_stretch (im : List (List ℚ)) : List (List ℚ) :=
  let in_min := percentile im.flatten 5
  let in_max := percentile im.flatten 95
  let out_min : ℚ := 0
  let out_max : ℚ := 255
  let out1 := im.map (List.map (fun x => x - in_min))
  let out2 := out1.map (List.map (fun x => x * ((out_min - out_max) / (in_min - in_max))))
  let out3 := out2.map (List.map (fun x => x + in_min))
  out3

/-- The denominator of the scale factor of `contrast_stretch`
(`in_min - in_max` at line 80): the code divides by it with no guard. -/
def csDenom (im : List (List ℚ)) : ℚ :=
  percentile im.flatten 5 - percentile im.flatten 95

/-- `contrast_stretch` with the unguarded division made explicit: `none`
exactly when the scale denominator `in_min - in_max` is zero, which in the
floating-point original produces an infinite/NaN scale rather than a
finite image.  Otherwise it agrees with the literal computation. -/
def contrast_stretchChecked (im : List (List ℚ)) : Option (List (List ℚ)) :=
  if csDenom im = 0 then none else some (contrast_stretch im)

/-- `calc_ndvi` from `main.py` lines 85–90 on an image given as a list of
BGR pixel triples: `b, g, r = cv.split(im)`, `bottom = r + b` elementwise,
`bottom[bottom == 0] = 0.01`, `ndvi = (b - r) / bottom`.  The channel
arrays are the componentwise projections and the elementwise numpy
operations are zips over them. -/
def calc_ndvi (im : List (ℚ × ℚ × ℚ)) : List ℚ :=
  let b := im.map (fun px => px.1)
  let r := im.map (fun px => px.2.2)
  let bottom := (List.zip r b).map (fun p => p.1 + p.2)
  let bottom := bottom.map (fun x => if x = 0 then 1/100 else x)
  (List.zip (List.zip b r) bottom).map (fun p => (p.1.1 - p.1.2) / p.2)

/-- The list of denominators actually used by the divisions in
`calc_ndvi` (the entries of `bottom` after the zero-substitution). -/
def ndviDenoms (im : List (ℚ × ℚ × ℚ)) : List ℚ :=
  im.map (fun px => if px.2.2 + px.1 = 0 then 1/100 else px.2.2 + px.1)

/-! ## The mission loop (`main.py` lines 93–183) as a state machine -/

/-- An unhandled Python exception, as logged by
`logger.error(f'{e.__class__.__name__}: {e}')`. -/
structure PyErr where
  className : String
  msg : String
deriving DecidableEq, Repr

/-- Where (if anywhere) an unhandled exception is raised during one loop
iteration: `ok` — none; `beforeRow` — in lines 118–152, before
`add_csv_data` appends the row; `afterRow` — in lines 156–170, after the
row was appended but before the capture/processing outputs are written. -/
inductive TickFault
  | ok
  | beforeRow (e : PyErr)
  | afterRow (e : PyErr)
deriving DecidableEq, Repr

/-- Raw values delivered by the hardware collaborators during one
iteration: `ISS.coordinates()` latitude/longitude in degrees, the raw
magnetometer, accelerometer and orientation readings. -/
structure SensorRead where
  lat : ℚ
  lon : ℚ
  magX : ℚ
  magY : ℚ
  magZ : ℚ
  accX : ℚ
  accY : ℚ
  accZ : ℚ
  pitch : ℚ
  roll : ℚ
  yaw : ℚ
deriving DecidableEq, Repr

/-- The environment a run is driven by: the wall clock (in minutes;
`start` is `start_time`, `now0` the initial `now_time`, `clock i` the
`datetime.now()` reading at the end of iteration `i`), the per-iteration
fault oracle, the `is_sunlit` oracle, the sensor readings, the printed
timestamp string, and the floating-point `math.sqrt` collaborator. -/
structure Env where
  start : ℚ
  now0 : ℚ
  clock : ℕ → ℚ
  fault : ℕ → TickFault
  sunlit : ℕ → Bool
  sensors : ℕ → SensorRead
  stamp : ℕ → String
  sqrtF : ℚ → ℚ

/-- One cell of a CSV line: the program writes strings (header), the
integer `count`, the timestamp string, and rounded float readings. -/
inductive Cell
  | nat (n : ℕ)
  | str (s : String)
  | rat (q : ℚ)
deriving DecidableEq, Repr

/-- The header row written by `create_csv_file` (line 33). -/
def header : List Cell :=
  [.str "Row_Id", .str "Timestamp", .str "Latitude", .str "Longitude",
   .str "Mag_x", .str "Mag_y", .str "Mag_z", .str "Magnetic_grad",
   .str "Accel_x", .str "Accel_y", .str "Accel_z",
   .str "Pitch", .str "Roll", .str "Yaw"]

/-- The `data` tuple assembled in lines 124–151 for iteration `i` with the
current `count`: rounded coordinates, rounded magnetometer values, the
gradient `round(math.sqrt(x² + y² + z²), 3)` of the already-rounded
magnetometer values, rounded accelerations and orientation. -/
def mkRow (env : Env) (i : ℕ) (count : ℕ) : List Cell :=
  let r := env.sensors i
  let x := pyRound r.magX 3
  let y := pyRound r.magY 3
  let z := pyRound r.magZ 3
  let gradient := pyRound (env.sqrtF (x ^ 2 + y ^ 2 + z ^ 2)) 3
  [.nat count, .str (env.stamp i),
   .rat (pyRound r.lat 4), .rat (pyRound r.lon 4),
   .rat x, .rat y, .rat z, .rat gradient,
   .rat (pyRound r.accX 3), .rat (pyRound r.accY 3), .rat (pyRound r.accZ 3),
   .rat (pyRound r.pitch 2), .rat (pyRound r.roll 2), .rat (pyRound r.yaw 2)]

/-- Run status: inside the `while` loop; fell out of the loop normally;
terminated through the `except` handler. -/
inductive Status
  | running
  | doneNormal
  | doneFatal
deriving DecidableEq, Repr

/-- Program state: `i` — the index of the next iteration; `count` and
`phcounter` — the two counters; `file` — the lines of the CSV log;
`photos` — the `count` values at which a capture happened; `errLog` — the
`logger.error` lines; `now` — the current value of `now_time`; `finalOut`
— what the `finally` block printed (empty while running). -/
structure PState where
  i : ℕ
  count : ℕ
  phcounter : ℕ
  file : List (List Cell)
  photos : List ℕ
  errLog : List String
  now : ℚ
  status : Status
  finalOut : List String
deriving DecidableEq, Repr

/-- The `finally` block (lines 178–183): print
`"Recorded measurements: " + str(count-1)` when `count > 0`, else
`"No data recorded"`, then `"Thank you"`. -/
def finallyPrints (count : ℕ) : List String :=
  (if 0 < count then "Recorded measurements: " ++ toString (count - 1)
   else "No data recorded") :: ["Thank you"]

/-- State after the setup code (lines 99–113): counters zero, the CSV file
holds only the header, `now_time` as initially read. -/
def initState (env : Env) : PState :=
  { i := 0, count := 0, phcounter := 0, file := [header], photos := [],
    errLog := [], now := env.now0, status := .running, finalOut := [] }

/-- One step of the mission program: if terminated, do nothing; if the
`while` condition `now_time < start_time + 175 minutes` (line 116) fails,
leave the loop and run the `finally` block; otherwise execute iteration
`i` — on a fault, the `except` handler logs the class name and message and
the `finally` block runs; otherwise append the row, capture when
`is_sunlit ∧ count % 200 == 0` (lines 156–157), increment `count` and
re-read the clock. -/
def step (env : Env) (s : PState) : PState :=
  if s.status ≠ .running then s
  else if ¬ s.now < env.start + 175 then
    { s with status := .doneNormal, finalOut := finallyPrints s.count }
  else
    match env.fault s.i with
    | .beforeRow e =>
        { s with errLog := s.errLog ++ [e.className ++ ": " ++ e.msg],
                 status := .doneFatal, finalOut := finallyPrints s.count }
    | .afterRow e =>
        { s with file := s.file ++ [mkRow env s.i s.count],
                 errLog := s.errLog ++ [e.className ++ ": " ++ e.msg],
                 status := .doneFatal, finalOut := finallyPrints s.count }
    | .ok =>
        let captured := env.sunlit s.i && s.count % 200 == 0
        { s with
          file := s.file ++ [mkRow env s.i s.count],
          photos := if captured then s.photos ++ [s.count] else s.photos,
          phcounter := if captured then s.phcounter + 1 else s.phcounter,
          count := s.count + 1,
          now := env.clock s.i,
          i := s.i + 1 }

/-- The program after `n` steps. -/
def run (env : Env) : ℕ → PState
  | 0 => initState env
  | n + 1 => step env (run env n)

/-- The value of `now_time` at the top of iteration `n`. -/
def nowAt (env : Env) : ℕ → ℚ
  | 0 => env.now0
  | n + 1 => env.clock n

/-- The data rows (in order) produced by the first `n` fault-free
iterations. -/
def rowsUpTo (env : Env) (n : ℕ) : List (List Cell) :=
  (List.range n).map (fun i => mkRow env i i)

/-- The sequence ids at which the capture gate fires during the first `n`
fault-free iterations. -/
def photoIds (env : Env) (n : ℕ) : List ℕ :=
  (List.range n).filter (fun i => env.sunlit i && i % 200 == 0)

/-- The state reached after `n` iterations when no fault occurred and the
deadline had not passed at any of their tops. -/
def normalState (env : Env) (n : ℕ) : PState :=
  { i := n, count := n, phcounter := (photoIds env n).length,
    file := header :: rowsUpTo env n, photos := photoIds env n,
    errLog := [], now := nowAt env n, status := .running, finalOut := [] }

/-- The run is still alive at the top of each of the first `n` iterations:
no fault was raised there and the deadline had not yet passed. -/
def liveUpTo (env : Env) (n : ℕ) : Prop :=
  ∀ j, j < n → env.fault j = .ok ∧ nowAt env j < env.start + 175

/-- All-zero sensor readings, for concrete runs. -/
def zeroSensors : SensorRead :=
  { lat := 0, lon := 0, magX := 0, magY := 0, magZ := 0,
    accX := 0, accY := 0, accZ := 0, pitch := 0, roll := 0, yaw := 0 }

/-- A concrete fault-free environment whose clock jumps past the deadline
after the first iteration: the run records exactly one sample. -/
def envOne : Env :=
  { start := 0, now0 := 0, clock := fun _ => 200, fault := fun _ => .ok,
    sunlit := fun _ => false, sensors := fun _ => zeroSensors,
    stamp := fun _ => "t", sqrtF := fun _ => 0 }

/-- A concrete fault-free, always-sunlit environment whose clock never
reaches the deadline on its own. -/
def envSun : Env :=
  { start := 0, now0 := 0, clock := fun _ => 0, fault := fun _ => .ok,
    sunlit := fun _ => true, sensors := fun _ => zeroSensors,
    stamp := fun _ => "t", sqrtF := fun _ => 0 }

/-- A concrete environment whose first iteration raises `IOError: boom`
after the CSV row was appended (i.e. in the capture/processing code). -/
def envFail : Env :=
  { start := 0, now0 := 0, clock := fun _ => 0,
    fault := fun _ => .afterRow { className := "IOError", msg := "boom" },
    sunlit := fun _ => true, sensors := fun _ => zeroSensors,
    stamp := fun _ => "t", sqrtF := fun _ => 0 }

/-- A concrete environment whose initial `now_time` is already past the
deadline: the loop body never runs. -/
def envStop : Env :=
  { start := 0, now0 := 200, clock := fun _ => 200, fault := fun _ => .ok,
    sunlit := fun _ => false, sensors := fun _ => zeroSensors,
    stamp := fun _ => "t", sqrtF := fun _ => 0 }

/-! ## State machine lemmas -/

theorem step_of_done (env : Env) (s : PState) (h : s.status ≠ .running) :
    step env s = s := by
  simp [step, h]

theorem run_stable (env : Env) (n : ℕ) (h : (run env n).status ≠ .running) :
    ∀ m, n ≤ m → run env m = run env n := by
  intro m hm
  induction m with
  | zero => cases Nat.le_zero.mp hm; rfl
  | succ m ih =>
    rcases Nat.lt_or_ge n (m + 1) with hlt | hge
    · have hm' : n ≤ m := Nat.lt_succ_iff.mp hlt
      have := ih hm'
      calc run env (m + 1) = step env (run env m) := rfl
        _ = step env (run env n) := by rw [this]
        _ = run env n := step_of_done env _ h
    · have : m + 1 = n := Nat.le_antisymm hge hm
      rw [this]

theorem liveUpTo_mono (env : Env) (m n : ℕ) (h : liveUpTo env n) (hm : m ≤ n) :
    liveUpTo env m :=
  fun j hj => h j (Nat.lt_of_lt_of_le hj hm)

theorem rowsUpTo_succ (env : Env) (n : ℕ) :
    rowsUpTo env (n + 1) = rowsUpTo env n ++ [mkRow env n n] := by
  simp [rowsUpTo, List.range_succ]

theorem photoIds_succ (env : Env) (n : ℕ) :
    photoIds env (n + 1) =
      photoIds env n ++ (if env.sunlit n && n % 200 == 0 then [n] else []) := by
  by_cases hc : (env.sunlit n && n % 200 == 0) = true
  · simp [photoIds, List.range_succ, List.filter_append, hc]
  · simp [photoIds, List.range_succ, List.filter_append, hc]

/-- The state after `n` live iterations (no fault, deadline not reached)
is the expected one: counters at `n`, the header plus one row per
iteration with `Row_Id` equal to the iteration index, and one photo per
iteration at which the capture gate fired. -/
theorem run_normal (env : Env) (n : ℕ) (h : liveUpTo env n) :
    run env n = normalState env n := by
  induction n with
  | zero =>
    simp [run, initState, normalState, rowsUpTo, photoIds, nowAt]
  | succ n ih =>
    have hn := h n (Nat.lt_succ_self n)
    have hlive : liveUpTo env n := liveUpTo_mono env n (n + 1) h (Nat.le_succ n)
    have hrun : run env (n + 1) = step env (normalState env n) := by
      rw [run, ih hlive]
    rw [hrun]
    rw [step]
    simp only [normalState, hn.1]
    rw [if_neg (by simp), if_neg (by simpa using hn.2)]
    by_cases hc : (env.sunlit n && n % 200 == 0) = true
    · simp only [hc, if_pos rfl]
      simp [normalState, rowsUpTo_succ, photoIds_succ, hc, nowAt]
    · simp only [hc]
      simp [normalState, rowsUpTo_succ, photoIds_succ, hc, nowAt]

/-- A run that is still inside the loop after `n` steps was live at the
top of each of its `n` iterations. -/
theorem run_running_live (env : Env) (n : ℕ)
    (h : (run env n).status = .running) : liveUpTo env n := by
  induction n with
  | zero => exact fun j hj => absurd hj (Nat.not_lt_zero j)
  | succ n ih =>
    have hn : (run env n).status = .running := by
      by_contra hne
      have := step_of_done env (run env n) hne
      rw [run, this] at h
      exact hne h
    have hlive := ih hn
    have heq := run_normal env n hlive
    have hstep : run env (n + 1) = step env (normalState env n) := by
      rw [run, heq]
    rw [hstep] at h
    rw [step] at h
    simp only [normalState] at h
    rw [if_neg (by simp)] at h
    by_cases hd : nowAt env n < env.start + 175
    · rw [if_neg (by simpa using hd)] at h
      cases hf : env.fault n with
      | ok =>
        intro j hj
        rcases Nat.lt_succ_iff_lt_or_eq.mp hj with hj' | hj'
        · exact hlive j hj'
        · subst hj'; exact ⟨hf, hd⟩
      | beforeRow e => rw [hf] at h; simp at h
      | afterRow e => rw [hf] at h; simp at h
    · rw [if_pos (by simpa using hd)] at h
      simp at h

/-- If the clock reading at the end of some iteration `k` has passed the
deadline, the loop is over within `k + 2` steps. -/
theorem run_terminates (env : Env) (k : ℕ)
    (hk : env.start + 175 ≤ env.clock k) :
    ∃ n, n ≤ k + 2 ∧ (run env (k + 2)).status ≠ .running ∧
      (run env n).status ≠ .running := by
  by_cases h : (run env (k + 1)).status = .running
  · have hlive := run_running_live env (k + 1) h
    have heq := run_normal env (k + 1) hlive
    have hstep : run env (k + 2) = step env (normalState env (k + 1)) := by
      rw [run, heq]
    have hnow : ¬ nowAt env (k + 1) < env.start + 175 := by
      simp only [nowAt]
      exact not_lt.mpr hk
    rw [step] at hstep
    simp only [normalState] at hstep
    rw [if_neg (by simp), if_pos (by simpa using hnow)] at hstep
    refine ⟨k + 2, Nat.le_refl _, ?_, ?_⟩ <;>
      · rw [hstep]; simp
  · refine ⟨k + 1, Nat.le_succ _, ?_, h⟩
    have := step_of_done env (run env (k + 1)) h
    rw [run, this]
    exact h

/-- Normal exit: after `N` live iterations with the deadline reached at
the top of iteration `N`, one more step leaves the loop with the
`finally` block executed. -/
theorem run_normal_exit (env : Env) (N : ℕ) (h : liveUpTo env N)
    (hd : ¬ nowAt env N < env.start + 175) :
    run env (N + 1) =
      { normalState env N with
          status := .doneNormal
          finalOut := finallyPrints N } := by
  have heq := run_normal env N h
  have hstep : run env (N + 1) = step env (normalState env N) := by
    rw [run, heq]
  rw [step] at hstep
  simp only [normalState] at hstep
  rw [if_neg (by simp), if_pos (by simpa using hd)] at hstep
  rw [hstep]
  rfl

/-- Fatal exit, error raised before the row append: after `k` live
iterations, a `beforeRow` fault in iteration `k` stops the run with the
error logged once, no new row and no new photo, and the `finally` block
executed. -/
theorem run_fatal_beforeRow (env : Env) (k : ℕ) (e : PyErr)
    (h : liveUpTo env k) (hd : nowAt env k < env.start + 175)
    (hf : env.fault k = .beforeRow e) :
    run env (k + 1) =
      { normalState env k with
          errLog := [e.className ++ ": " ++ e.msg]
          status := .doneFatal
          finalOut := finallyPrints k } := by
  have heq := run_normal env k h
  have hstep : run env (k + 1) = step env (normalState env k) := by
    rw [run, heq]
  rw [step] at hstep
  simp only [normalState] at hstep
  rw [if_neg (by simp), if_neg (by simpa using hd)] at hstep
  rw [hf] at hstep
  rw [hstep]
  rfl

/-- Fatal exit, error raised after the row append (in the capture or
processing code): the row of the failing iteration is already in the
file; the error is logged once, no photo is added, and the `finally`
block runs. -/
theorem run_fatal_afterRow (env : Env) (k : ℕ) (e : PyErr)
    (h : liveUpTo env k) (hd : nowAt env k < env.start + 175)
    (hf : env.fault k = .afterRow e) :
    run env (k + 1) =
      { normalState env k with
          file := (header :: rowsUpTo env k) ++ [mkRow env k k]
          errLog := [e.className ++ ": " ++ e.msg]
          status := .doneFatal
          finalOut := finallyPrints k } := by
  have heq := run_normal env k h
  have hstep : run env (k + 1) = step env (normalState env k) := by
    rw [run, heq]
  rw [step] at hstep
  simp only [normalState] at hstep
  rw [if_neg (by simp), if_neg (by simpa using hd)] at hstep
  rw [hf] at hstep
  rw [hstep]
  rfl

/-! ## Image pipeline lemmas -/

/-- The percentile of a buffer all of whose entries are `c` is `c`. -/
theorem percentile_const (l : List ℚ) (c p : ℚ) (hl : l ≠ [])
    (hc : ∀ x ∈ l, x = c) (hp1 : p ≤ 100) :
    percentile l p = c := by
  have hperm := List.perm_insertionSort (α := ℚ) (· ≤ ·) l
  have hlen : (List.insertionSort (· ≤ ·) l).length = l.length :=
    hperm.length_eq
  have hmem : ∀ x ∈ List.insertionSort (· ≤ ·) l, x = c := by
    intro x hx
    exact hc x (hperm.mem_iff.mp hx)
  have hne : l.length ≠ 0 := fun h => hl (List.length_eq_zero.mp h)
  rw [percentile]
  simp only [hlen]
  rw [if_neg hne]
  have hn1 : 1 ≤ l.length := Nat.one_le_iff_ne_zero.mpr hne
  have hlo : (⌊p * ((l.length : ℚ) - 1) / 100⌋).toNat < l.length := by
    have hpos : p * ((l.length : ℚ) - 1) / 100 ≤ (l.length : ℚ) - 1 := by
      rw [div_le_iff₀ (by norm_num)]
      have h1 : (0 : ℚ) ≤ (l.length : ℚ) - 1 := by
        have : (1 : ℚ) ≤ (l.length : ℚ) := by exact_mod_cast hn1
        linarith
      nlinarith
    have hcast : ⌊((l.length : ℚ) - 1)⌋ = (l.length : ℤ) - 1 := by
      rw [show ((l.length : ℚ) - 1 : ℚ) = (((l.length : ℤ) - 1 : ℤ) : ℚ) by
        push_cast; ring]
      rw [Int.floor_intCast]
    have hfl : ⌊p * ((l.length : ℚ) - 1) / 100⌋ ≤ (l.length : ℤ) - 1 :=
      le_trans (Int.floor_le_floor hpos) (le_of_eq hcast)
    omega
  have ha : (List.insertionSort (· ≤ ·) l).getD
      (⌊p * ((l.length : ℚ) - 1) / 100⌋).toNat 0 = c := by
    rw [List.getD_eq_getElem _ _ (by rw [hlen]; exact hlo)]
    exact hmem _ (List.getElem_mem _)
  rw [ha]
  by_cases hb : (⌊p * ((l.length : ℚ) - 1) / 100⌋).toNat + 1 <
      (List.insertionSort (· ≤ ·) l).length
  · rw [List.getD_eq_getElem _ _ hb]
    rw [hmem _ (List.getElem_mem _)]
    ring
  · rw [List.getD_eq_default _ _ (by omega)]
    ring

/-- `calc_ndvi` computes, pixel by pixel, `(b - r) / bottom` with
`bottom = r + b` replaced by `0.01` when zero. -/
theorem calc_ndvi_eq (im : List (ℚ × ℚ × ℚ)) :
    calc_ndvi im =
      im.map (fun px =>
        (px.1 - px.2.2) / (if px.2.2 + px.1 = 0 then 1/100 else px.2.2 + px.1)) := by
  induction im with
  | nil => rfl
  | cons px t ih =>
    simp only [calc_ndvi, List.map_cons, List.zip_cons_cons] at ih ⊢
    rw [ih.symm]

/-- The elementwise passes of `contrast_stretch` compose into the literal
transform `(x - p5) * ((0 - 255) / (p5 - p95)) + p5`. -/
theorem contrast_stretch_eq (im : List (List ℚ)) :
    contrast_stretch im =
      im.map (List.map (fun x =>
        (x - percentile im.flatten 5) *
          ((0 - 255) / (percentile im.flatten 5 - percentile im.flatten 95)) +
          percentile im.flatten 5)) := by
  simp [contrast_stretch, List.map_map, Function.comp]

/-! ## Claim theorems -/

theorem sign_neg_iff (q : ℚ) :
    ((if q < 0 then (-1 : ℤ) else if 0 < q then 1 else 0) < 0) ↔ q < 0 := by
  split_ifs with h1 h2
  · exact iff_of_true (by omega) h1
  · exact iff_of_false (by omega) (not_lt.mpr (le_of_lt h2))
  · exact iff_of_false (by omega) h1

/-- Claim C5: for every signed angle, `convert` returns
`is_negative = (angle < 0)` together with a tag whose three rational pairs
are the degrees `D/1`, minutes `M/1` (`0 ≤ M < 60`) and seconds
`round(S*10)/10` of the sexagesimal decomposition
`D + M/60 + S/3600 = |angle|` with `0 ≤ D`, `0 ≤ S < 60`; in particular
`convert 0 = (false, 0, 0, 0)` and
`convert (-45.5) = (true, 45, 30, 0.0)`. -/
theorem C5_convert_dms :
    (∀ q : ℚ, ∃ D M : ℤ, ∃ S : ℚ,
      0 ≤ D ∧ 0 ≤ M ∧ M < 60 ∧ 0 ≤ S ∧ S < 60 ∧
      (D : ℚ) + (M : ℚ) / 60 + S / 3600 = |q| ∧
      convert q = (decide (q < 0),
        toString D ++ "/1," ++ toString M ++ "/1," ++
          toString (roundHalfEven (S * 10)) ++ "/10")) ∧
    convert 0 = (false, "0/1,0/1,0/10") ∧
    convert (-91/2) = (true, "45/1,30/1,0/10") := by
  refine ⟨?_, ?_, ?_⟩
  · intro q
    refine ⟨(signed_dms q).2.1, (signed_dms q).2.2.1, (signed_dms q).2.2.2,
      ?_, ?_, ?_, ?_, ?_, ?_, ?_⟩
    all_goals
      try simp only [show (signed_dms q).2.1 =
          ⌊((⌊|q| * 3600 / 60⌋ : ℤ) : ℚ) / 60⌋ from rfl,
        show (signed_dms q).2.2.1 =
          ⌊|q| * 3600 / 60⌋ - 60 * ⌊((⌊|q| * 3600 / 60⌋ : ℤ) : ℚ) / 60⌋ from rfl,
        show (signed_dms q).2.2.2 =
          |q| * 3600 - 60 * (⌊|q| * 3600 / 60⌋ : ℚ) from rfl]
    case _ =>
      -- 0 ≤ D
      apply Int.floor_nonneg.mpr
      positivity
    case _ =>
      -- 0 ≤ M
      have h := Int.floor_le (((⌊|q| * 3600 / 60⌋ : ℤ) : ℚ) / 60)
      have h60 : (⌊((⌊|q| * 3600 / 60⌋ : ℤ) : ℚ) / 60⌋ : ℚ) * 60 ≤
          ((⌊|q| * 3600 / 60⌋ : ℤ) : ℚ) :=
        (le_div_iff₀ (by norm_num : (0:ℚ) < 60)).mp h
      have : (⌊((⌊|q| * 3600 / 60⌋ : ℤ) : ℚ) / 60⌋ : ℤ) * 60 ≤
          ⌊|q| * 3600 / 60⌋ := by exact_mod_cast h60
      omega
    case _ =>
      -- M < 60
      have h := Int.lt_floor_add_one (((⌊|q| * 3600 / 60⌋ : ℤ) : ℚ) / 60)
      have h60 : ((⌊|q| * 3600 / 60⌋ : ℤ) : ℚ) <
          ((⌊((⌊|q| * 3600 / 60⌋ : ℤ) : ℚ) / 60⌋ : ℚ) + 1) * 60 :=
        (div_lt_iff₀ (by norm_num : (0:ℚ) < 60)).mp h
      have : (⌊|q| * 3600 / 60⌋ : ℤ) <
          (⌊((⌊|q| * 3600 / 60⌋ : ℤ) : ℚ) / 60⌋ + 1) * 60 := by
        exact_mod_cast h60
      omega
    case _ =>
      -- 0 ≤ S
      have h := Int.floor_le (|q| * 3600 / 60)
      have : (⌊|q| * 3600 / 60⌋ : ℚ) * 60 ≤ |q| * 3600 :=
        (le_div_iff₀ (by norm_num : (0:ℚ) < 60)).mp h
      linarith
    case _ =>
      -- S < 60
      have h := Int.lt_floor_add_one (|q| * 3600 / 60)
      have : |q| * 3600 < ((⌊|q| * 3600 / 60⌋ : ℚ) + 1) * 60 :=
        (div_lt_iff₀ (by norm_num : (0:ℚ) < 60)).mp h
      linarith
    case _ =>
      -- reconstruction
      push_cast
      ring
    case _ =>
      -- shape of the returned pair
      have hconv : convert q = (decide ((signed_dms q).1 < 0),
          toString (signed_dms q).2.1 ++ "/1," ++
            toString (signed_dms q).2.2.1 ++ "/1," ++
            toString (roundHalfEven ((signed_dms q).2.2.2 * 10)) ++ "/10") := rfl
      rw [hconv]
      congr 1
      have h1 : (signed_dms q).1 =
          (if q < 0 then (-1 : ℤ) else if 0 < q then 1 else 0) := rfl
      rw [h1]
      exact decide_eq_decide.mpr (sign_neg_iff q)
  · have h : signed_dms 0 = (0, 0, 0, 0) := by
      simp only [signed_dms, abs_zero]
      norm_num
    rw [convert, h]
    have h2 : roundHalfEven ((0 : ℚ) * 10) = 0 := by norm_num [roundHalfEven]
    simp only [h2]
    rfl
  · have h : signed_dms (-91/2) = (-1, 45, 30, 0) := by
      have habs : |(-91/2 : ℚ)| = 91/2 := by norm_num
      simp only [signed_dms, habs]
      norm_num
    rw [convert, h]
    have h2 : roundHalfEven ((0 : ℚ) * 10) = 0 := by norm_num [roundHalfEven]
    simp only [h2]
    rfl

/-- Claim C6: for the angle 10° 20′ 59.96″ — whose seconds component
rounds up to the next minute at tenth-of-arcsecond resolution — `convert`
encodes the seconds rational as `600/10` (i.e. 60.0 seconds) while the
degrees and minutes components stay `10/1` and `20/1`: the rounding is
not carried into minutes or degrees. -/
theorem C6_seconds_rounding_no_carry :
    signed_dms (931499/90000) = (1, 10, 20, 1499/25) ∧
    (5995/100 : ℚ) ≤ 1499/25 ∧
    roundHalfEven ((1499/25 : ℚ) * 10) = 600 ∧
    convert (931499/90000) = (false, "10/1,20/1,600/10") := by
  have h : signed_dms (931499/90000) = (1, 10, 20, 1499/25) := by
    have habs : |(931499/90000 : ℚ)| = 931499/90000 := by norm_num
    simp only [signed_dms, habs]
    norm_num
  refine ⟨h, by norm_num, by norm_num [roundHalfEven], ?_⟩
  rw [convert, h]
  have h2 : roundHalfEven ((1499/25 : ℚ) * 10) = 600 := by
    norm_num [roundHalfEven]
  simp only [h2]
  rfl

/-- Whenever the run has left the loop — normally or through the
`except` handler — the `finally` block has printed the summary for the
final value of `count`. -/
theorem run_done_finalOut (env : Env) (n : ℕ)
    (h : (run env n).status ≠ .running) :
    (run env n).finalOut = finallyPrints (run env n).count := by
  induction n with
  | zero => simp [run, initState] at h
  | succ n ih =>
    by_cases hs : (run env n).status = .running
    · rw [run] at h ⊢
      rw [step] at h ⊢
      rw [if_neg (by simp [hs])] at h ⊢
      by_cases hd : (run env n).now < env.start + 175
      · rw [if_neg (by simp [hd])] at h ⊢
        cases hf : env.fault (run env n).i with
        | ok =>
          rw [hf] at h
          simp at h
          exact absurd hs h
        | beforeRow e => rfl
        | afterRow e => rfl
      · rw [if_pos (by simpa using hd)] at h ⊢
    · rw [run, step_of_done env _ hs] at h ⊢
      exact ih h

/-- The `run envOne` run does exactly one iteration and exits normally. -/
theorem envOne_live : liveUpTo envOne 1 := by
  intro j hj
  have hj0 : j = 0 := by omega
  subst hj0
  exact ⟨rfl, by norm_num [nowAt, envOne]⟩

theorem envOne_run2 :
    run envOne 2 = { normalState envOne 1 with
      status := .doneNormal
      finalOut := finallyPrints 1 } :=
  run_normal_exit envOne 1 envOne_live (by norm_num [nowAt, envOne])

/-- Claim C1, counterexample: in a run that records exactly one sample
(one data row in the CSV, `count = 1`) and terminates normally, the exit
message is `"Recorded measurements: 0"` — not the number of records
recorded, which is 1.  The `finally` block prints `count - 1`. -/
theorem C1_counterexample :
    (run envOne 2).status = .doneNormal ∧
    (run envOne 2).file = [header, mkRow envOne 0 0] ∧
    (run envOne 2).count = 1 ∧
    (run envOne 2).finalOut = ["Recorded measurements: 0", "Thank you"] ∧
    "Recorded measurements: 0" ≠ "Recorded measurements: 1" := by
  rw [envOne_run2]
  refine ⟨rfl, ?_, rfl, ?_, by decide⟩
  · simp [normalState, rowsUpTo, List.range_succ]
  · rfl

/-- Claim C1 (amended): at exit from the loop — normal or fatal — the
program prints `"Recorded measurements: " ++ (count − 1)` when
`count > 0`, i.e. one less than the number of fully completed samples,
and `"No data recorded"` (capital N) when `count = 0`, followed by
`"Thank you"`. -/
theorem C1_amended_exit_report :
    ∀ (env : Env) (n : ℕ), (run env n).status ≠ .running →
      (run env n).finalOut =
        (if 0 < (run env n).count then
          "Recorded measurements: " ++ toString ((run env n).count - 1)
         else "No data recorded") :: ["Thank you"] :=
  fun env n h => run_done_finalOut env n h

/-- Witness for C1 (amended) at the concrete one-sample run `envOne`. -/
theorem C1_witness :
    (run envOne 2).status ≠ .running ∧
    (run envOne 2).finalOut =
      (if 0 < (run envOne 2).count then
        "Recorded measurements: " ++ toString ((run envOne 2).count - 1)
       else "No data recorded") :: ["Thank you"] := by
  have hs : (run envOne 2).status ≠ .running := by
    rw [envOne_run2]
    simp
  exact ⟨hs, C1_amended_exit_report envOne 2 hs⟩

/-- Claim C2: in a live run, the capture pipeline runs and the photo
counter increments at iteration `i` exactly when `is_sunlit` is true at
`i` and the sequence id satisfies `i % 200 = 0`; a 401-sample run sunlit
throughout captures exactly the 3 photos at sequence ids 0, 200, 400, and
a never-sunlit run captures none. -/
theorem C2_capture_gate :
    (∀ (env : Env) (N : ℕ), liveUpTo env N →
      (run env N).photos = photoIds env N ∧
      (run env N).phcounter = (photoIds env N).length ∧
      (∀ i, i ∈ photoIds env N ↔
        i < N ∧ env.sunlit i = true ∧ i % 200 = 0)) ∧
    (∀ env : Env, liveUpTo env 401 → (∀ i, env.sunlit i = true) →
      (run env 401).photos = [0, 200, 400] ∧ (run env 401).phcounter = 3) ∧
    (∀ (env : Env) (N : ℕ), liveUpTo env N → (∀ i, env.sunlit i = false) →
      (run env N).photos = [] ∧ (run env N).phcounter = 0) := by
  have hmain : ∀ (env : Env) (N : ℕ), liveUpTo env N →
      (run env N).photos = photoIds env N ∧
      (run env N).phcounter = (photoIds env N).length := by
    intro env N h
    rw [run_normal env N h]
    exact ⟨rfl, rfl⟩
  refine ⟨?_, ?_, ?_⟩
  · intro env N h
    refine ⟨(hmain env N h).1, (hmain env N h).2, ?_⟩
    intro i
    simp [photoIds, List.mem_filter, List.mem_range]
  · intro env h hsun
    have hfun : photoIds env 401 = [0, 200, 400] := by
      have : photoIds env 401 =
          (List.range 401).filter (fun i => i % 200 == 0) := by
        apply List.filter_congr
        intro x _
        rw [hsun x]
        simp
      rw [this]
      decide
    rcases hmain env 401 h with ⟨h1, h2⟩
    rw [h1, h2, hfun]
    exact ⟨rfl, rfl⟩
  · intro env N h hsun
    have hfun : photoIds env N = [] := by
      apply List.filter_eq_nil_iff.mpr
      intro x _
      rw [hsun x]
      simp
    rcases hmain env N h with ⟨h1, h2⟩
    rw [h1, h2, hfun]
    exact ⟨rfl, rfl⟩

/-- Witness for C2 at the concrete always-sunlit 401-iteration run `envSun`. -/
theorem C2_witness :
    (run envSun 401).photos = [0, 200, 400] ∧
    (run envSun 401).phcounter = 3 :=
  C2_capture_gate.2.1 envSun
    (fun j _ => ⟨rfl, by cases j <;> norm_num [nowAt, envSun]⟩)
    (fun _ => rfl)

/-- Claim C3: `contrast_stretch` computes `p5` and `p95` as the 5th and
95th percentiles of the whole flattened buffer (the same two scalars for
every pixel and channel) and returns exactly
`out = (image − p5) × ((0 − 255) / (p5 − p95)) + p5`, the additive term
re-adding `p5` rather than the nominal output minimum 0. -/
theorem C3_contrast_stretch_formula :
    ∀ im : List (List ℚ),
      contrast_stretch im =
        im.map (List.map (fun x =>
          (x - percentile im.flatten 5) *
            ((0 - 255) / (percentile im.flatten 5 - percentile im.flatten 95)) +
            percentile im.flatten 5)) ∧
      (contrast_stretch im).length = im.length :=
  fun im => ⟨contrast_stretch_eq im, by rw [contrast_stretch_eq im]; simp⟩

/-- Claim C4: `calc_ndvi` computes, elementwise, `(B − R) / (R + B)` with
every zero denominator replaced by 0.01; every denominator actually used
is nonzero (so no division-by-zero error is possible), and a pixel with
`red = blue = 0` yields 0. -/
theorem C4_calc_ndvi_guard :
    (∀ im : List (ℚ × ℚ × ℚ),
      calc_ndvi im = im.map (fun px =>
        (px.1 - px.2.2) /
          (if px.2.2 + px.1 = 0 then 1/100 else px.2.2 + px.1))) ∧
    (∀ im : List (ℚ × ℚ × ℚ), ∀ d ∈ ndviDenoms im, d ≠ 0) ∧
    (∀ (im : List (ℚ × ℚ × ℚ)) (i : ℕ) (h : i < im.length),
      (im[i]).1 = 0 → (im[i]).2.2 = 0 → (calc_ndvi im).getD i 1 = 0) := by
  refine ⟨calc_ndvi_eq, ?_, ?_⟩
  · intro im d hd
    rw [ndviDenoms, List.mem_map] at hd
    rcases hd with ⟨px, _, heq⟩
    by_cases hz : px.2.2 + px.1 = 0
    · rw [if_pos hz] at heq
      rw [← heq]
      norm_num
    · rw [if_neg hz] at heq
      rw [← heq]
      exact hz
  · intro im i h h1 h2
    rw [calc_ndvi_eq]
    rw [List.getD_eq_getElem _ _ (by simpa using h)]
    simp only [List.getElem_map, h1, h2]
    norm_num

/-- Witness for C4 at the concrete one-pixel image with red = blue = 0. -/
theorem C4_witness :
    (0 : ℕ) < ([((0:ℚ), (3:ℚ), (0:ℚ))]).length ∧
    (calc_ndvi [((0:ℚ), (3:ℚ), (0:ℚ))]).getD 0 1 = 0 :=
  ⟨by simp, C4_calc_ndvi_guard.2.2 [((0:ℚ), (3:ℚ), (0:ℚ))] 0 (by simp) rfl rfl⟩

/-- Claim C7, counterexample: an unhandled error raised in the capture /
processing phase of iteration 0 (after `add_csv_data`) terminates the run
fatally with the error logged — but the in-flight iteration's telemetry
row IS in the log (two lines: header plus the failing iteration's row),
contradicting "the in-flight iteration's output is not produced". -/
theorem C7_counterexample :
    (run envFail 1).status = .doneFatal ∧
    (run envFail 1).errLog = ["IOError: boom"] ∧
    (run envFail 1).file = [header, mkRow envFail 0 0] ∧
    (run envFail 1).file.length = 2 := by
  have heq := run_fatal_afterRow envFail 0 { className := "IOError", msg := "boom" }
    (fun j hj => absurd hj (Nat.not_lt_zero j))
    (by norm_num [nowAt, envFail]) rfl
  refine ⟨by rw [heq]; try rfl, by rw [heq]; try rfl, ?_, ?_⟩
  · rw [heq]
    simp [normalState, rowsUpTo]
  · rw [heq]
    simp [normalState, rowsUpTo]

/-- Claim C7 (amended): the first unhandled error at iteration `k` stops
the run immediately — no retry, nothing further ever happens — with the
error logged exactly once as `ClassName: message`, the previously
persisted rows and photos retained unchanged, and the process exiting
cleanly through the `finally` block.  Outputs of the failing iteration
not yet written at the failure point are never produced, but a row
already appended by the failing iteration (an error in the capture /
processing phase) remains in the log. -/
theorem C7_amended_fatal_stop :
    ∀ (env : Env) (k : ℕ) (e : PyErr), liveUpTo env k →
      nowAt env k < env.start + 175 →
      (env.fault k = .beforeRow e ∨ env.fault k = .afterRow e) →
      (run env (k + 1)).status = .doneFatal ∧
      (run env (k + 1)).errLog = [e.className ++ ": " ++ e.msg] ∧
      (run env (k + 1)).photos = photoIds env k ∧
      (run env (k + 1)).phcounter = (photoIds env k).length ∧
      (run env (k + 1)).finalOut =
        (if 0 < k then "Recorded measurements: " ++ toString (k - 1)
         else "No data recorded") :: ["Thank you"] ∧
      (env.fault k = .beforeRow e →
        (run env (k + 1)).file = header :: rowsUpTo env k) ∧
      (env.fault k = .afterRow e →
        (run env (k + 1)).file = header :: (rowsUpTo env k ++ [mkRow env k k])) ∧
      (∀ m, k + 1 ≤ m → run env m = run env (k + 1)) := by
  intro env k e hlive hd hdisj
  rcases hdisj with hf | hf
  · have heq := run_fatal_beforeRow env k e hlive hd hf
    have hstat : (run env (k + 1)).status ≠ .running := by
      rw [heq]
      simp
    refine ⟨by rw [heq]; try rfl, by rw [heq]; try rfl,
      by rw [heq]; try simp [normalState], by rw [heq]; try simp [normalState],
      by rw [heq]; try rfl, fun _ => by rw [heq]; try simp [normalState],
      fun hcontra => ?_, run_stable env (k + 1) hstat⟩
    rw [hf] at hcontra
    simp at hcontra
  · have heq := run_fatal_afterRow env k e hlive hd hf
    have hstat : (run env (k + 1)).status ≠ .running := by
      rw [heq]
      simp
    refine ⟨by rw [heq]; try rfl, by rw [heq]; try rfl,
      by rw [heq]; try simp [normalState], by rw [heq]; try simp [normalState],
      by rw [heq]; try rfl, fun hcontra => ?_,
      fun _ => by rw [heq]; try simp [normalState],
      run_stable env (k + 1) hstat⟩
    rw [hf] at hcontra
    simp at hcontra

/-- Witness for C7 (amended) at the concrete failing run `envFail`. -/
theorem C7_witness :
    (run envFail 1).status = .doneFatal ∧
    (run envFail 1).errLog = ["IOError: boom"] ∧
    (run envFail 1).finalOut = ["No data recorded", "Thank you"] := by
  have h := C7_amended_fatal_stop envFail 0 { className := "IOError", msg := "boom" }
    (fun j hj => absurd hj (Nat.not_lt_zero j))
    (by norm_num [nowAt, envFail]) (Or.inr rfl)
  exact ⟨h.1, h.2.1, h.2.2.2.2.1⟩

/-- Claim C8: the mission loop terminates once the clock passes
`start_time + 175` minutes: the `while` condition is re-checked at the
top of every iteration and a single step from any running state past the
deadline exits the loop normally; once out, the state never changes, and
if no samples were recorded the exit path still reports
"No data recorded". -/
theorem C8_termination :
    ∀ (env : Env) (k : ℕ), env.start + 175 ≤ env.clock k →
      (∃ n, n ≤ k + 2 ∧ (run env n).status ≠ .running ∧
        ∀ m, n ≤ m → run env m = run env n) ∧
      (∀ s : PState, s.status = .running → ¬ s.now < env.start + 175 →
        step env s = { s with
          status := .doneNormal
          finalOut := finallyPrints s.count }) ∧
      (∀ n, (run env n).status ≠ .running → (run env n).count = 0 →
        (run env n).finalOut = ["No data recorded", "Thank you"]) := by
  intro env k hk
  refine ⟨?_, ?_, ?_⟩
  · rcases run_terminates env k hk with ⟨n, hn, _, hstat⟩
    exact ⟨n, hn, hstat, run_stable env n hstat⟩
  · intro s hs hd
    rw [step]
    rw [if_neg (by simp [hs]), if_pos hd]
  · intro n hstat hcount
    rw [run_done_finalOut env n hstat, hcount]
    rfl

/-- Witness for C8 at the concrete environment `envStop`: the run is over
after one step and, with zero samples, reports "No data recorded". -/
theorem C8_witness :
    (run envStop 1).finalOut = ["No data recorded", "Thank you"] := by
  have heq := run_normal_exit envStop 0
    (fun j hj => absurd hj (Nat.not_lt_zero j))
    (by norm_num [nowAt, envStop])
  have hstat : (run envStop 1).status ≠ .running := by
    rw [heq]
    simp
  have hcount : (run envStop 1).count = 0 := by
    rw [heq]
    rfl
  exact (C8_termination envStop 0 (by norm_num [envStop])).2.2 1 hstat hcount

/-- Claim C9: a successful run (normal termination) with `N` samples
leaves a log of exactly `N + 1` lines — the fixed 14-column header first,
then one row per sample in arrival order — whose `Row_Id` fields form the
contiguous sequence `0 .. N−1`. -/
theorem C9_log_shape :
    ∀ (env : Env) (N : ℕ), liveUpTo env N →
      ¬ nowAt env N < env.start + 175 →
      (run env (N + 1)).status = .doneNormal ∧
      (run env (N + 1)).file.length = N + 1 ∧
      (run env (N + 1)).file.headD [] = header ∧
      header.length = 14 ∧
      (∀ j, j < N →
        (run env (N + 1)).file.getD (j + 1) [] = mkRow env j j ∧
        (mkRow env j j).length = 14 ∧
        (mkRow env j j).headD (.str "") = Cell.nat j) := by
  intro env N hlive hd
  have heq := run_normal_exit env N hlive hd
  have hfile : (run env (N + 1)).file = header :: rowsUpTo env N := by
    rw [heq]
    simp [normalState]
  refine ⟨by rw [heq]; try rfl, ?_, ?_, rfl, ?_⟩
  · rw [hfile]
    simp [rowsUpTo]
  · rw [hfile]
    rfl
  · intro j hj
    refine ⟨?_, rfl, rfl⟩
    rw [hfile]
    rw [List.getD_cons_succ]
    rw [List.getD_eq_getElem _ _ (by simpa [rowsUpTo] using hj)]
    simp [rowsUpTo]

/-- Witness for C9 at the concrete one-sample run `envOne`. -/
theorem C9_witness :
    (run envOne 2).status = .doneNormal ∧
    (run envOne 2).file.length = 2 := by
  have h := C9_log_shape envOne 1 envOne_live (by norm_num [nowAt, envOne])
  exact ⟨h.1, h.2.1⟩

/-- Claim C10: `contrast_stretch`'s scale division is unguarded — it is
well-defined only under the unstated precondition `p5 ≠ p95`.  The
checked variant refuses exactly the inputs with `p5 − p95 = 0`, agrees
with the literal computation on all others, and every nonempty constant
image (all intensities equal) does reach the division-by-zero case. -/
theorem C10_percentile_degenerate :
    (∀ im : List (List ℚ),
      contrast_stretchChecked im = none ↔ csDenom im = 0) ∧
    (∀ im : List (List ℚ), csDenom im ≠ 0 →
      contrast_stretchChecked im = some (contrast_stretch im)) ∧
    (∀ (im : List (List ℚ)) (c : ℚ), im.flatten ≠ [] →
      (∀ x ∈ im.flatten, x = c) →
      percentile im.flatten 5 = percentile im.flatten 95 ∧
      csDenom im = 0 ∧ contrast_stretchChecked im = none) := by
  refine ⟨?_, ?_, ?_⟩
  · intro im
    rw [contrast_stretchChecked]
    by_cases h : csDenom im = 0
    · simp [h]
    · simp [h]
  · intro im h
    rw [contrast_stretchChecked, if_neg h]
  · intro im c hne hc
    have h5 := percentile_const im.flatten c 5 hne hc (by norm_num)
    have h95 := percentile_const im.flatten c 95 hne hc (by norm_num)
    have hdz : csDenom im = 0 := by
      rw [csDenom, h5, h95]
      ring
    exact ⟨h5.trans h95.symm, hdz, by rw [contrast_stretchChecked, if_pos hdz]⟩

/-- Witness for C10 at a concrete constant two-pixel image. -/
theorem C10_witness :
    csDenom [[(1:ℚ)/2], [(1:ℚ)/2]] = 0 ∧
    contrast_stretchChecked [[(1:ℚ)/2], [(1:ℚ)/2]] = none := by
  have h := C10_percentile_degenerate.2.2 [[(1:ℚ)/2], [(1:ℚ)/2]] (1/2)
    (by simp) (by intro x hx; simp at hx; rw [hx]; norm_num)
  exact ⟨h.2.1, h.2.2⟩
